import Mathlib

/-!
Verification of the RigidBodyTree core
(src/MultibodyComputation/SimbodyRigidBodies/RigidBodyTree.cpp).

The C++ source is shallowly embedded below.  Machine doubles are modelled as
real numbers; the std::vector containers as Lean lists; heap-owned sub-objects
of the state container as indices into explicit heaps, so that aliasing and
deep-copy behaviour stay observable.  Definitions follow the source line by
line; the few collaborator types that live outside this file (RigidBodyNode
internals, LengthConstraints, SimbodyTreeVariables, SimbodyTreeResults) are
modelled from the spec and marked as such.
-/

noncomputable section

/-- Three-component vector of reals, modelling the Vec3 of the source
(components x, y, z). -/
structure Vec3 where
  x : ℝ
  y : ℝ
  z : ℝ

instance : Add Vec3 := ⟨fun a b => ⟨a.x + b.x, a.y + b.y, a.z + b.z⟩⟩

instance : Sub Vec3 := ⟨fun a b => ⟨a.x - b.x, a.y - b.y, a.z - b.z⟩⟩

/-- Cross product, modelling cross(a, b) of the source. -/
def Vec3.cross (a b : Vec3) : Vec3 :=
  ⟨a.y * b.z - a.z * b.y, a.z * b.x - a.x * b.z, a.x * b.y - a.y * b.x⟩

/-- Dot product, written in the source as a transpose times a vector. -/
def Vec3.dot (a b : Vec3) : ℝ :=
  a.x * b.x + a.y * b.y + a.z * b.z

/-- Squared Euclidean magnitude, modelling normSqr() of the source. -/
def Vec3.normSqr (a : Vec3) : ℝ :=
  a.x * a.x + a.y * a.y + a.z * a.z

/-- Euclidean magnitude, modelling norm() of the source. -/
def Vec3.norm (a : Vec3) : ℝ :=
  Real.sqrt a.normSqr

/-- Componentwise division of a vector by a scalar, modelling operator/ of the
source.  Division is the total real division of Lean (value 0 at denominator
0); IEEE arithmetic would produce NaN there instead, which is what the
degeneracy analysis below is about. -/
def Vec3.divR (a : Vec3) (s : ℝ) : Vec3 :=
  ⟨a.x / s, a.y / s, a.z / s⟩

/-- Scalar multiple of a vector (used only in theorem statements, to express
that one vector is a positive multiple of another). -/
def Vec3.smulR (s : ℝ) (a : Vec3) : Vec3 :=
  ⟨s * a.x, s * a.y, s * a.z⟩

/-- A 3 by 3 matrix of reals given by rows, standing for the rotation part of
a transform. -/
structure Mat3 where
  row1 : Vec3
  row2 : Vec3
  row3 : Vec3

/-- Matrix-vector product, modelling the rotation applied in
RBStation::calcPosInfo. -/
def Mat3.mulVec (m : Mat3) (v : Vec3) : Vec3 :=
  ⟨m.row1.dot v, m.row2.dot v, m.row3.dot v⟩

/-- Modelled from the spec: the RigidBodyNode internals are outside this file;
the station code only reads these per-node kinematic accessors (getR_GB,
getOB_G, getSpatialAngVel, getSpatialLinVel, getSpatialAngAcc,
getSpatialLinAcc), so a node is modelled here as the record of their
values. -/
structure RBNodeKinematics where
  R_GB : Mat3
  OB_G : Vec3
  spatialAngVel : Vec3
  spatialLinVel : Vec3
  spatialAngAcc : Vec3
  spatialLinAcc : Vec3

/-- A station: a node together with a fixed point expressed in the local frame
of that node (RBStation of the source). -/
structure RBStation where
  node : RBNodeKinematics
  station_B : Vec3

/-- Computed station quantities (RBStationRuntime of the source). -/
structure RBStationRuntime where
  station_G : Vec3
  pos_G : Vec3
  stationVel_G : Vec3
  vel_G : Vec3
  acc_G : Vec3

/-- RBStation::calcPosInfo (source lines 33 to 36): the world-frame offset is
the rotation applied to the local station, and the world position adds the
node origin. -/
def RBStation.calcPosInfo (s : RBStation) (rt : RBStationRuntime) : RBStationRuntime :=
  let station_G := s.node.R_GB.mulVec s.station_B
  { rt with station_G := station_G, pos_G := s.node.OB_G + station_G }

/-- RBStation::calcVelInfo (source lines 38 to 43). -/
def RBStation.calcVelInfo (s : RBStation) (rt : RBStationRuntime) : RBStationRuntime :=
  let stationVel_G := Vec3.cross s.node.spatialAngVel rt.station_G
  { rt with stationVel_G := stationVel_G, vel_G := s.node.spatialLinVel + stationVel_G }

/-- RBStation::calcAccInfo (source lines 45 to 52). -/
def RBStation.calcAccInfo (s : RBStation) (rt : RBStationRuntime) : RBStationRuntime :=
  { rt with acc_G :=
      s.node.spatialLinAcc + Vec3.cross s.node.spatialAngAcc rt.station_G
        + Vec3.cross s.node.spatialAngVel rt.stationVel_G }

/-- A distance constraint: two stations and a target separation
(RBDistanceConstraint of the source; the C array stations[0], stations[1] is
modelled as the two fields station1, station2). -/
structure RBDistanceConstraint where
  station1 : RBStation
  station2 : RBStation
  distance : ℝ
  runtimeIndex : Int

/-- Computed distance-constraint quantities (RBDistanceConstraintRuntime of
the source; stationRuntimes[0], stationRuntimes[1] become the two fields). -/
structure RBDistanceConstraintRuntime where
  stationRuntime1 : RBStationRuntime
  stationRuntime2 : RBStationRuntime
  fromTip1ToTip2_G : Vec3
  unitDirection_G : Vec3
  relVel_G : Vec3
  posErr : ℝ
  velErr : ℝ
  accErr : ℝ

/-- RBDistanceConstraint::calcPosInfo (source lines 59 to 68): recompute both
station positions, form the separation vector from station 1 to station 2,
divide it by its own magnitude to get the stored direction (the division is
not guarded against a zero magnitude), and set the position error to the
target distance minus the separation.  The assert at the head of the C++
function is a debug sanity check on the validity flag and the runtime index,
not part of the value computation. -/
def RBDistanceConstraint.calcPosInfo (dc : RBDistanceConstraint)
    (rt : RBDistanceConstraintRuntime) : RBDistanceConstraintRuntime :=
  let srt1 := dc.station1.calcPosInfo rt.stationRuntime1
  let srt2 := dc.station2.calcPosInfo rt.stationRuntime2
  let fromTip1ToTip2_G := srt2.pos_G - srt1.pos_G
  let separation := fromTip1ToTip2_G.norm
  { rt with
    stationRuntime1 := srt1
    stationRuntime2 := srt2
    fromTip1ToTip2_G := fromTip1ToTip2_G
    unitDirection_G := fromTip1ToTip2_G.divR separation
    posErr := dc.distance - separation }

/-- RBDistanceConstraint::calcVelInfo (source lines 70 to 77). -/
def RBDistanceConstraint.calcVelInfo (dc : RBDistanceConstraint)
    (rt : RBDistanceConstraintRuntime) : RBDistanceConstraintRuntime :=
  let srt1 := dc.station1.calcVelInfo rt.stationRuntime1
  let srt2 := dc.station2.calcVelInfo rt.stationRuntime2
  let relVel_G := srt2.vel_G - srt1.vel_G
  { rt with
    stationRuntime1 := srt1
    stationRuntime2 := srt2
    relVel_G := relVel_G
    velErr := rt.unitDirection_G.dot relVel_G }

/-- RBDistanceConstraint::calcAccInfo (source lines 79 to 87): recompute both
station accelerations and set the acceleration error to the squared magnitude
of the stored relative velocity plus the dot product of the relative
acceleration with the stored (unnormalized) separation vector.  The source
carries the annotation that this formula looks suspect; it is embedded
literally. -/
def RBDistanceConstraint.calcAccInfo (dc : RBDistanceConstraint)
    (rt : RBDistanceConstraintRuntime) : RBDistanceConstraintRuntime :=
  let srt1 := dc.station1.calcAccInfo rt.stationRuntime1
  let srt2 := dc.station2.calcAccInfo rt.stationRuntime2
  let relAcc_G := srt2.acc_G - srt1.acc_G
  { rt with
    stationRuntime1 := srt1
    stationRuntime2 := srt2
    accErr := rt.relVel_G.normSqr + relAcc_G.dot rt.fromTip1ToTip2_G }

/-- Modelled from the spec: SimbodyTreeVariables is defined outside this file;
the spec treats it as an opaque deep-copyable value (the "variables"
sub-object of the state container), so it is modelled as a wrapped
payload. -/
structure SimbodyTreeVariables where
  payload : Nat
  deriving DecidableEq

/-- Modelled from the spec: SimbodyTreeResults is defined outside this file;
the spec treats it as an opaque deep-copyable value (the "cache" sub-object
of the state container), so it is modelled as a wrapped payload. -/
structure SimbodyTreeResults where
  payload : Nat
  deriving DecidableEq

/-- Explicit heaps for the two kinds of heap-owned sub-objects of SBState.
A pointer is an index into the matching heap; allocation appends a cell.
This keeps aliasing between an SBState and its copies observable, which is
what the deep-copy claims are about. -/
structure SBWorld where
  varsHeap : List SimbodyTreeVariables
  cacheHeap : List SimbodyTreeResults
  deriving DecidableEq

/-- The state container (SBState of the source): two independently optional
owned sub-objects, held through pointers into the heaps.  A null C++ pointer
is modelled as none. -/
structure SBState where
  vars : Option Nat
  cache : Option Nat
  deriving DecidableEq

/-- Dereference a variables pointer (the value read through *src.vars). -/
def SBWorld.readVars (w : SBWorld) (p : Nat) : SimbodyTreeVariables :=
  w.varsHeap.getD p ⟨0⟩

/-- Dereference a cache pointer (the value read through *src.cache). -/
def SBWorld.readCache (w : SBWorld) (p : Nat) : SimbodyTreeResults :=
  w.cacheHeap.getD p ⟨0⟩

/-- Overwrite the variables cell a pointer designates (a mutation of the
sub-object). -/
def SBWorld.writeVars (w : SBWorld) (p : Nat) (v : SimbodyTreeVariables) : SBWorld :=
  { w with varsHeap := w.varsHeap.set p v }

/-- Overwrite the cache cell a pointer designates (a mutation of the
sub-object). -/
def SBWorld.writeCache (w : SBWorld) (p : Nat) (v : SimbodyTreeResults) : SBWorld :=
  { w with cacheHeap := w.cacheHeap.set p v }

/-- Allocate a fresh variables cell (the new expression of the source);
returns the grown heap and the fresh pointer. -/
def SBWorld.allocVars (w : SBWorld) (v : SimbodyTreeVariables) : SBWorld × Nat :=
  ({ w with varsHeap := w.varsHeap ++ [v] }, w.varsHeap.length)

/-- Allocate a fresh cache cell; returns the grown heap and the fresh
pointer. -/
def SBWorld.allocCache (w : SBWorld) (v : SimbodyTreeResults) : SBWorld × Nat :=
  ({ w with cacheHeap := w.cacheHeap ++ [v] }, w.cacheHeap.length)

/-- SBState copy constructor (source lines 18 to 21): the new object starts
with both sub-objects null, then for each sub-object present in the source a
fresh cell is allocated holding a copy of the value the source points to. -/
def SBState.copyCtor (w : SBWorld) (src : SBState) : SBWorld × SBState :=
  let av : SBWorld × Option Nat :=
    match src.vars with
    | some p => ((w.allocVars (w.readVars p)).1, some (w.allocVars (w.readVars p)).2)
    | none => (w, none)
  let ac : SBWorld × Option Nat :=
    match src.cache with
    | some p => ((av.1.allocCache (av.1.readCache p)).1, some (av.1.allocCache (av.1.readCache p)).2)
    | none => (av.1, none)
  (ac.1, { vars := av.2, cache := ac.2 })

/-- A store of SBState objects, so that object identity (the address
comparison in operator=) is expressible: an object is a slot index into
objs. -/
structure SBObjs where
  world : SBWorld
  objs : List SBState
  deriving DecidableEq

/-- SBState::operator= (source lines 23 to 30), assigning the object in slot
si to the object in slot ti.  When source and target are the same object
(the address check of the source) nothing happens at all; otherwise the
sub-objects of the target are destroyed and the present sub-objects of the
source are deep-copied into fresh cells, exactly as the copy constructor
does. -/
def SBObjs.opAssign (s : SBObjs) (ti si : Nat) : SBObjs :=
  if ti = si then s
  else
    let src := s.objs.getD si ⟨none, none⟩
    let a := SBState.copyCtor s.world src
    { world := a.1, objs := s.objs.set ti a.2 }

/-- A rigid-body node as the tree sees it (RigidBodyNode internals are
outside this file; the tree code only touches the level, the node number, the
degree-of-freedom count and the generalized-coordinate count, through
getLevel/setLevel, getNodeNum/setNodeNum, getDOF and getMaxNQ). -/
structure RigidBodyNode where
  level : Nat
  nodeNum : Nat
  dof : Nat
  maxNQ : Nat
  deriving DecidableEq

/-- Entry of the nodeNum-to-node map (RigidBodyNodeIndex of the source): the
level and the offset within that level. -/
structure RigidBodyNodeIndex where
  level : Nat
  offset : Nat
  deriving DecidableEq

/-- Reference configuration of a body frame in its parent frame (TransformMat
of the source): a rotation and a translation. -/
structure TransformMat where
  rot : Mat3
  trans : Vec3

/-- Modelled from the spec: LengthConstraints is the external constraint
solver; realizeConstruction constructs it bound to this tree with a numerical
tolerance and a verbosity level and hands it the constraint list and the
runtime-cache array, so it is modelled as the record of what that
construction consumed. -/
structure LengthConstraints where
  ctol : ℝ
  verbose : Int
  constraints : List RBDistanceConstraint
  runtimeInfo : List RBDistanceConstraintRuntime

/-- The tree (RigidBodyTree of the source): the level-partitioned node
forest, the dense nodeNum map, the distance constraints with their runtime
caches, the aggregate size totals, and the owned solver (null until
realizeConstruction). -/
structure RigidBodyTree where
  rbNodeLevels : List (List RigidBodyNode)
  nodeNum2NodeMap : List RigidBodyNodeIndex
  distanceConstraints : List RBDistanceConstraint
  dcRuntimeInfo : List RBDistanceConstraintRuntime
  DOFTotal : Nat
  SqDOFTotal : Nat
  maxNQTotal : Nat
  lConstraints : Option LengthConstraints

/-- The ground node.  Modelled from the spec: RigidBodyNode::create is
external; the ground body has zero degrees of freedom and zero generalized
coordinates, level 0 and node number 0 (set by addGroundNode itself in the
source). -/
def groundNode : RigidBodyNode := ⟨0, 0, 0, 0⟩

/-- RigidBodyTree::addGroundNode (source lines 126 to 141): asserts that no
node exists yet (returning none models the assert firing), then installs the
ground node as the single level-0 node with node number 0. -/
def RigidBodyTree.addGroundNode (t : RigidBodyTree) : Option RigidBodyTree :=
  if t.nodeNum2NodeMap.length = 0 ∧ t.rbNodeLevels.length = 0 then
    some { t with rbNodeLevels := [[groundNode]], nodeNum2NodeMap := [⟨0, 0⟩] }
  else
    none

/-- The conditional resize step of addRigidBodyNode (source line 110): when
the level table is too short it is grown with empty levels so that the index
level exists. -/
def resizedLevels (L : List (List RigidBodyNode)) (level : Nat) :
    List (List RigidBodyNode) :=
  if L.length ≤ level then L ++ List.replicate (level + 1 - L.length) [] else L

/-- RigidBodyTree::addRigidBodyNode (source lines 101 to 123): takes
ownership of the supplied node, sets its level to one more than the level of
the supplied parent, grows the level table if needed, appends the node to its
level, assigns the next sequential node number, records the
(level, offset) pair in the map, and returns the node number.  The source
contains no check that the parent belongs to this tree: the parent argument
is only read for its level (and handed to the external parent.addChild, which
links the two node objects; that link is never consulted by the code of this
file).  Returns the updated tree and the assigned node number. -/
def RigidBodyTree.addRigidBodyNode (t : RigidBodyTree) (parent : RigidBodyNode)
    (referenceConfig : TransformMat) (nodep : RigidBodyNode) : RigidBodyTree × Nat :=
  let _ := referenceConfig
  let level := parent.level + 1
  let levels0 := resizedLevels t.rbNodeLevels level
  let nxt := (levels0.getD level []).length
  let nodeNum := t.nodeNum2NodeMap.length
  let n := { nodep with level := level, nodeNum := nodeNum }
  ({ t with
      rbNodeLevels := levels0.set level ((levels0.getD level []) ++ [n])
      nodeNum2NodeMap := t.nodeNum2NodeMap ++ [⟨level, nxt⟩] },
   nodeNum)

/-- RigidBodyTree::realizeConstruction (source lines 156 to 167): resets the
three aggregate totals and re-sums them over every node of every level, then
constructs the solver from the constraint list and the runtime array.  The
source contains no check against being called a second time. -/
def RigidBodyTree.realizeConstruction (t : RigidBodyTree) (ctol : ℝ) (verbose : Int) :
    RigidBodyTree :=
  { t with
    DOFTotal := (t.rbNodeLevels.map (fun lvl => (lvl.map RigidBodyNode.dof).sum)).sum
    SqDOFTotal := (t.rbNodeLevels.map (fun lvl => (lvl.map (fun n => n.dof * n.dof)).sum)).sum
    maxNQTotal := (t.rbNodeLevels.map (fun lvl => (lvl.map RigidBodyNode.maxNQ).sum)).sum
    lConstraints := some ⟨ctol, verbose, t.distanceConstraints, t.dcRuntimeInfo⟩ }

/-- The order in which RigidBodyTree::calcP (source lines 254 to 259) visits
the nodes: the outer loop walks the level index downward from the last level
to level 0, the inner loop walks each level in stored order. -/
def RigidBodyTree.calcPOrder (t : RigidBodyTree) : List RigidBodyNode :=
  t.rbNodeLevels.reverse.flatten

/-- The order in which RigidBodyTree::calcZ (source lines 265 to 272) visits
the nodes: identical loop structure to calcP, descending level index, stored
order within a level. -/
def RigidBodyTree.calcZOrder (t : RigidBodyTree) : List RigidBodyNode :=
  t.rbNodeLevels.reverse.flatten

/-- The order in which RigidBodyTree::calcTreeInternalForces (source lines
293 to 299) visits the nodes: same descending-level double loop as calcZ. -/
def RigidBodyTree.calcTreeInternalForcesOrder (t : RigidBodyTree) : List RigidBodyNode :=
  t.rbNodeLevels.reverse.flatten

/-- The indices at which RigidBodyTree::calcZ reads the applied spatial-force
list: the loop body reads spatialForces[node.getNodeNum()] for each visited
node, so each node consumes exactly the slot named by its own node
number. -/
def RigidBodyTree.calcZAccesses (t : RigidBodyTree) : List Nat :=
  t.calcZOrder.map RigidBodyNode.nodeNum

/-- The indices at which RigidBodyTree::calcTreeInternalForces reads the
applied spatial-force list: again spatialForces[node.getNodeNum()] per
visited node. -/
def RigidBodyTree.calcTreeInternalForcesAccesses (t : RigidBodyTree) : List Nat :=
  t.calcTreeInternalForcesOrder.map RigidBodyNode.nodeNum

/-- All nodes of the tree, in level order (the flattening of the level
table). -/
def RigidBodyTree.nodesOf (t : RigidBodyTree) : List RigidBodyNode :=
  t.rbNodeLevels.flatten

/-- The level table is consistent: every node stored in the level-i slot
carries level i.  This is the invariant the construction operations maintain
(addGroundNode stores the level-0 ground node at slot 0; addRigidBodyNode
stores a node whose level field it just set to i at slot i). -/
def levelConsistent (L : List (List RigidBodyNode)) : Prop :=
  ∀ i < L.length, ∀ n ∈ L.getD i [], n.level = i

instance (L : List (List RigidBodyNode)) : Decidable (levelConsistent L) := by
  unfold levelConsistent
  infer_instance

/-- The node numbers are dense: every node number is below the size of the
nodeNum map, and every index below that size is the node number of some node.
This is the invariant dense sequential assignment maintains. -/
def RigidBodyTree.nodeNumsComplete (t : RigidBodyTree) : Prop :=
  (∀ n ∈ t.nodesOf, n.nodeNum < t.nodeNum2NodeMap.length) ∧
    (∀ k < t.nodeNum2NodeMap.length, ∃ n ∈ t.nodesOf, n.nodeNum = k)

instance (t : RigidBodyTree) : Decidable t.nodeNumsComplete := by
  unfold RigidBodyTree.nodeNumsComplete
  infer_instance

/-- A spatial vector: angular and linear three-vector, an element of the
SpatialVecList the dynamics entry points take. -/
abbrev SpatialVec := Vec3 × Vec3

/-- The applied-force list type of the source (SpatialVecList). -/
abbrev SpatialVecList := List SpatialVec

/-- Modelled from the spec: the constraint-solver collaborator as
calcLoopForwardDynamics consults it.  calcConstraintForces reports whether
non-zero corrective forces are required, and the corrective forces themselves
are those addInCorrectionForces adds in. -/
structure LoopSolverBehavior where
  correctionNeeded : Bool
  corrective : SpatialVecList

/-- Modelled from the spec: LengthConstraints::addInCorrectionForces adds the
corrective forces of the solver into the given force list, slot by slot. -/
def addInCorrectionForces (solver : LoopSolverBehavior) (frc : SpatialVecList) :
    SpatialVecList :=
  List.zipWith (fun f c => (f.1 + c.1, f.2 + c.2)) frc solver.corrective

/-- RigidBodyTree::calcLoopForwardDynamics (source lines 241 to 248): copies
the caller-supplied force list into the local sFrc, runs
calcTreeForwardDynamics on it, asks the solver whether corrective forces are
needed, and if so adds them into sFrc and runs calcTreeForwardDynamics once
more; there is no loop.  The caller list is taken by const reference and
never written.  The result returns the caller list as it stands after the
call together with the sequence of force arguments passed to
calcTreeForwardDynamics, in order. -/
def calcLoopForwardDynamics (solver : LoopSolverBehavior)
    (spatialForces : SpatialVecList) : SpatialVecList × List SpatialVecList :=
  let sFrc := spatialForces
  if solver.correctionNeeded then
    (spatialForces, [sFrc, addInCorrectionForces solver sFrc])
  else
    (spatialForces, [sFrc])

/-- A non-ground example body: one degree of freedom, one coordinate. -/
def bodyNodeEx : RigidBodyNode := ⟨1, 1, 1, 1⟩

/-- Example tree with the ground node and one body at level 1 (the state an
addGroundNode followed by one addRigidBodyNode produces). -/
def treeTwoBodies : RigidBodyTree :=
  ⟨[[groundNode], [bodyNodeEx]], [⟨0, 0⟩, ⟨1, 0⟩], [], [], 0, 0, 0, none⟩

/-- Example tree holding only the ground node. -/
def treeGroundOnly : RigidBodyTree :=
  ⟨[[groundNode]], [⟨0, 0⟩], [], [], 0, 0, 0, none⟩

/-- The identity rotation. -/
def mat3Id : Mat3 := ⟨⟨1, 0, 0⟩, ⟨0, 1, 0⟩, ⟨0, 0, 1⟩⟩

/-- An example reference configuration (identity). -/
def cfgEx : TransformMat := ⟨mat3Id, ⟨0, 0, 0⟩⟩

/-- A node that is not part of treeGroundOnly (its level field is 5 and its
stored node number 99; treeGroundOnly holds only the ground node). -/
def foreignParent : RigidBodyNode := ⟨5, 99, 0, 0⟩

/-- A freshly created node about to be handed to addRigidBodyNode. -/
def newNodeEx : RigidBodyNode := ⟨0, 0, 2, 3⟩

/-- An example solver behaviour that requests a correction pass. -/
def solverEx : LoopSolverBehavior := ⟨true, []⟩

/-- An example force list. -/
def forcesEx : SpatialVecList := []

/-- An example force list with one slot per body of treeTwoBodies. -/
def forcesTwo : SpatialVecList := [(⟨0, 0, 0⟩, ⟨0, 0, 0⟩), (⟨0, 0, 0⟩, ⟨0, 0, 0⟩)]

/-- C2: calcLoopForwardDynamics runs the unconstrained forward dynamics once
on (a copy of) the input forces; exactly when the solver reports corrective
forces are needed it reruns calcTreeForwardDynamics once more on the copy
with the corrections added in, and never a third time; the caller-held force
list is unchanged after the call. -/
theorem calcLoopForwardDynamics_single_correction (solver : LoopSolverBehavior)
    (fs : SpatialVecList) :
    (calcLoopForwardDynamics solver fs).1 = fs
    ∧ (calcLoopForwardDynamics solver fs).2.getD 0 [] = fs
    ∧ (calcLoopForwardDynamics solver fs).2.length ≤ 2
    ∧ ((calcLoopForwardDynamics solver fs).2.length = 2 ↔ solver.correctionNeeded = true)
    ∧ (solver.correctionNeeded = true →
        (calcLoopForwardDynamics solver fs).2 = [fs, addInCorrectionForces solver fs])
    ∧ (solver.correctionNeeded = false →
        (calcLoopForwardDynamics solver fs).2 = [fs]) := by
  cases h : solver.correctionNeeded <;> simp [calcLoopForwardDynamics, h]

theorem calcLoopForwardDynamics_single_correction_witness :
    (calcLoopForwardDynamics solverEx forcesEx).1 = forcesEx
    ∧ (calcLoopForwardDynamics solverEx forcesEx).2
        = [forcesEx, addInCorrectionForces solverEx forcesEx] :=
  ⟨(calcLoopForwardDynamics_single_correction solverEx forcesEx).1,
   (calcLoopForwardDynamics_single_correction solverEx forcesEx).2.2.2.2.1 rfl⟩

/-- C4: the acceleration error computed by
RBDistanceConstraint::calcAccInfo equals the literal (flagged-as-suspect)
formula: the squared magnitude of the stored relative station velocity plus
the dot product of the relative station acceleration with the unnormalized
separation vector from station 1 to station 2. -/
theorem calcAccInfo_literal_formula (dc : RBDistanceConstraint)
    (rt : RBDistanceConstraintRuntime) :
    (dc.calcAccInfo rt).accErr =
      rt.relVel_G.normSqr
        + Vec3.dot
            ((dc.station2.calcAccInfo rt.stationRuntime2).acc_G
              - (dc.station1.calcAccInfo rt.stationRuntime1).acc_G)
            rt.fromTip1ToTip2_G :=
  rfl

/-- C6 counterexample: on a concrete two-body tree, a second call of
realizeConstruction is not rejected: it completes, silently re-aggregates
the totals to the same values (DOFTotal 1 here), and again installs a
freshly built solver. -/
theorem realizeConstruction_twice_not_rejected_cex :
    (treeTwoBodies.realizeConstruction 0 0).realizeConstruction 0 0
        = treeTwoBodies.realizeConstruction 0 0
    ∧ ((treeTwoBodies.realizeConstruction 0 0).realizeConstruction 0 0).DOFTotal = 1
    ∧ ((treeTwoBodies.realizeConstruction 0 0).realizeConstruction 0 0).lConstraints.isSome
        = true :=
  ⟨rfl, rfl, rfl⟩

/-- C6 amended: calling realizeConstruction a second time on the same tree is
not rejected; the source contains no precondition check, so the second call
silently resets and re-aggregates the size totals (reproducing the same
values, since the totals are recomputed from zero) and rebuilds the
constraint solver, leaving the tree exactly as the first call left it. -/
theorem realizeConstruction_second_call_reaggregates (t : RigidBodyTree) (ctol : ℝ)
    (verbose : Int) :
    (t.realizeConstruction ctol verbose).realizeConstruction ctol verbose
      = t.realizeConstruction ctol verbose :=
  rfl

/-- C9: assigning a state container to itself hits the address-equality guard
of operator= and leaves the whole world untouched: both sub-objects are
unchanged and nothing is deleted or recreated. -/
theorem opAssign_self_noop (s : SBObjs) (i : Nat) : s.opAssign i i = s := by
  simp [SBObjs.opAssign]

theorem lt_length_resizedLevels (L : List (List RigidBodyNode)) (level : Nat) :
    level < (resizedLevels L level).length := by
  unfold resizedLevels
  split
  · simp only [List.length_append, List.length_replicate]
    omega
  · omega

theorem mem_flatten_set {α : Type} (L : List (List α)) (i : Nat) (hi : i < L.length)
    (x : List α) (a : α) (ha : a ∈ x) : a ∈ (L.set i x).flatten := by
  refine List.mem_flatten.mpr ⟨x, ?_, ha⟩
  have h2 : i < (L.set i x).length := by simpa using hi
  have h3 := List.getElem_set_self (l := L) (i := i) (a := x) h2
  exact List.mem_iff_getElem.mpr ⟨i, h2, h3⟩

/-- The node value addRigidBodyNode actually stores: the supplied node with
its level and node number overwritten (setLevel and setNodeNum of the
source). -/
def insertedNode (nodep : RigidBodyNode) (lvl num : Nat) : RigidBodyNode :=
  { nodep with level := lvl, nodeNum := num }

/-- C7 counterexample: on the concrete ground-only tree, calling
addRigidBodyNode with a parent node that is not part of the tree (no node of
the tree equals it) is not rejected: the call inserts the new node at level
6 (one past the stray parent level 5), assigns it node number 1, and grows
the node map to two entries. -/
theorem addRigidBodyNode_foreign_parent_inserts_cex :
    (∀ n ∈ treeGroundOnly.nodesOf, n ≠ foreignParent)
    ∧ (treeGroundOnly.addRigidBodyNode foreignParent cfgEx newNodeEx).2 = 1
    ∧ (treeGroundOnly.addRigidBodyNode foreignParent cfgEx
        newNodeEx).1.nodeNum2NodeMap.length = 2
    ∧ insertedNode newNodeEx 6 1
        ∈ (treeGroundOnly.addRigidBodyNode foreignParent cfgEx newNodeEx).1.nodesOf := by
  decide

/-- C7 amended: addRigidBodyNode performs no membership check on the supplied
parent; for every tree and every parent node whatsoever (in the tree or not)
the call inserts the supplied node at level parent.level + 1, assigns it the
next sequential node number, appends one entry to the node map and returns
that node number. -/
theorem addRigidBodyNode_unchecked_inserts (t : RigidBodyTree) (parent : RigidBodyNode)
    (cfg : TransformMat) (nodep : RigidBodyNode) :
    (t.addRigidBodyNode parent cfg nodep).2 = t.nodeNum2NodeMap.length
    ∧ (t.addRigidBodyNode parent cfg nodep).1.nodeNum2NodeMap.length
        = t.nodeNum2NodeMap.length + 1
    ∧ insertedNode nodep (parent.level + 1) t.nodeNum2NodeMap.length
        ∈ (t.addRigidBodyNode parent cfg nodep).1.nodesOf := by
  refine ⟨rfl, by simp [RigidBodyTree.addRigidBodyNode], ?_⟩
  have hrb : (t.addRigidBodyNode parent cfg nodep).1.rbNodeLevels
      = (resizedLevels t.rbNodeLevels (parent.level + 1)).set (parent.level + 1)
          ((resizedLevels t.rbNodeLevels (parent.level + 1)).getD (parent.level + 1) []
            ++ [insertedNode nodep (parent.level + 1) t.nodeNum2NodeMap.length]) := rfl
  show _ ∈ (t.addRigidBodyNode parent cfg nodep).1.rbNodeLevels.flatten
  rw [hrb]
  exact mem_flatten_set _ _ (lt_length_resizedLevels _ _) _ _
    (List.mem_append_right _ (List.mem_singleton_self _))

theorem levelConsistent_getElem {L : List (List RigidBodyNode)} (hc : levelConsistent L)
    (i : Nat) (hi : i < L.length) : ∀ n ∈ L[i], n.level = i := by
  intro n hn
  exact hc i hi n (by rwa [List.getD_eq_getElem _ _ hi])

theorem pairwise_level_ge_of_levelConsistent (L : List (List RigidBodyNode))
    (hc : levelConsistent L) :
    List.Pairwise (fun a b : RigidBodyNode => b.level ≤ a.level) L.reverse.flatten := by
  rw [List.pairwise_flatten]
  constructor
  · intro l hl
    rw [List.mem_reverse] at hl
    obtain ⟨i, hi, hgi⟩ := List.mem_iff_getElem.mp hl
    refine List.pairwise_of_forall_mem_list ?_
    intro a ha b hb
    rw [levelConsistent_getElem hc i hi b (hgi ▸ hb),
      levelConsistent_getElem hc i hi a (hgi ▸ ha)]
  · rw [List.pairwise_reverse, List.pairwise_iff_getElem]
    intro i j hi hj hij x hx y hy
    rw [levelConsistent_getElem hc i hi y hy, levelConsistent_getElem hc j hj x hx]
    omega

/-- C1: both tip-to-base sweeps, calcP and calcZ, visit the nodes in
descending level order: whenever the node at sweep position p carries a
strictly greater level than the node at sweep position q, position p comes
strictly first, so in particular every child (level parent + 1) is processed
strictly before its parent; and calcZ visits exactly the same sequence as
calcP. -/
theorem calcP_calcZ_descending_levels (t : RigidBodyTree)
    (hc : levelConsistent t.rbNodeLevels)
    (p q : Fin t.calcPOrder.length)
    (hgt : (t.calcPOrder.get q).level < (t.calcPOrder.get p).level) :
    (p : Nat) < (q : Nat) ∧ t.calcZOrder = t.calcPOrder := by
  refine ⟨?_, rfl⟩
  have hpw : List.Pairwise (fun a b : RigidBodyNode => b.level ≤ a.level) t.calcPOrder :=
    pairwise_level_ge_of_levelConsistent _ hc
  rw [List.pairwise_iff_get] at hpw
  rcases lt_trichotomy (p : Nat) (q : Nat) with h | h | h
  · exact h
  · exact absurd hgt (by rw [Fin.ext h]; exact lt_irrefl _)
  · exact absurd hgt (not_lt.mpr (hpw q p h))

theorem calcP_calcZ_descending_levels_witness :
    levelConsistent treeTwoBodies.rbNodeLevels
    ∧ ((0 : Nat) < 1 ∧ treeTwoBodies.calcZOrder = treeTwoBodies.calcPOrder) :=
  ⟨by decide, calcP_calcZ_descending_levels treeTwoBodies (by decide)
      ⟨0, by decide⟩ ⟨1, by decide⟩ (by decide)⟩

theorem mem_calcZAccesses (t : RigidBodyTree) (i : Nat) :
    i ∈ t.calcZAccesses ↔ ∃ n ∈ t.nodesOf, n.nodeNum = i := by
  simp only [RigidBodyTree.calcZAccesses, RigidBodyTree.calcZOrder,
    RigidBodyTree.nodesOf, List.mem_map, List.mem_flatten, List.mem_reverse]

theorem calcZAccesses_bound_iff (t : RigidBodyTree) (forces : SpatialVecList)
    (hwf : t.nodeNumsComplete) :
    (∀ i ∈ t.calcZAccesses, i < forces.length)
      ↔ t.nodeNum2NodeMap.length ≤ forces.length := by
  constructor
  · intro hb
    rcases Nat.eq_zero_or_pos t.nodeNum2NodeMap.length with h0 | hpos
    · omega
    · obtain ⟨n, hn, hnum⟩ := hwf.2 (t.nodeNum2NodeMap.length - 1) (by omega)
      have hmem := (mem_calcZAccesses t _).mpr ⟨n, hn, hnum⟩
      have := hb _ hmem
      omega
  · intro hle i hi
    obtain ⟨n, hn, hnum⟩ := (mem_calcZAccesses t i).mp hi
    have := hwf.1 n hn
    omega

/-- C10: calcZ and calcTreeInternalForces read the applied spatial-force list
exactly at the node numbers of the visited nodes (each node consumes only its
own slot), the sweeps cover every node including the ground node (node
number 0 is read whenever the tree is nonempty), and under dense node
numbering every such read is in bounds exactly when the force list has at
least one entry per body of the tree, ground included. -/
theorem calcZ_internalForces_access_bounds (t : RigidBodyTree) (forces : SpatialVecList)
    (hwf : t.nodeNumsComplete) :
    ((∀ i ∈ t.calcZAccesses, i < forces.length)
        ↔ t.nodeNum2NodeMap.length ≤ forces.length)
    ∧ ((∀ i ∈ t.calcTreeInternalForcesAccesses, i < forces.length)
        ↔ t.nodeNum2NodeMap.length ≤ forces.length)
    ∧ t.calcZAccesses = t.calcZOrder.map RigidBodyNode.nodeNum
    ∧ t.calcTreeInternalForcesAccesses
        = t.calcTreeInternalForcesOrder.map RigidBodyNode.nodeNum
    ∧ (0 < t.nodeNum2NodeMap.length → 0 ∈ t.calcZAccesses) := by
  refine ⟨calcZAccesses_bound_iff t forces hwf, calcZAccesses_bound_iff t forces hwf,
    rfl, rfl, ?_⟩
  intro hpos
  obtain ⟨n, hn, hnum⟩ := hwf.2 0 hpos
  exact (mem_calcZAccesses t 0).mpr ⟨n, hn, hnum⟩

theorem calcZ_internalForces_access_bounds_witness :
    treeTwoBodies.nodeNumsComplete
    ∧ treeTwoBodies.nodeNum2NodeMap.length ≤ forcesTwo.length :=
  ⟨by decide,
   (calcZ_internalForces_access_bounds treeTwoBodies forcesTwo (by decide)).1.mp
     (by decide)⟩

@[simp] theorem Vec3.add_def (a b : Vec3) :
    a + b = ⟨a.x + b.x, a.y + b.y, a.z + b.z⟩ := rfl

@[simp] theorem Vec3.sub_def (a b : Vec3) :
    a - b = ⟨a.x - b.x, a.y - b.y, a.z - b.z⟩ := rfl

theorem Vec3.smulR_divR_cancel (v : Vec3) (s : ℝ) (h : s ≠ 0) :
    Vec3.smulR s (v.divR s) = v := by
  cases v with
  | mk x y z =>
    simp only [Vec3.smulR, Vec3.divR, Vec3.mk.injEq]
    refine ⟨?_, ?_, ?_⟩ <;> field_simp

/-- The separation of the two station world positions as
RBDistanceConstraint::calcPosInfo forms it: the world position of station 2
(computed by RBStation::calcPosInfo) minus the world position of station 1.
This is exactly the fromTip1ToTip2_G vector of the source. -/
def stationSeparation (dc : RBDistanceConstraint) (rt : RBDistanceConstraintRuntime) :
    Vec3 :=
  (dc.station2.calcPosInfo rt.stationRuntime2).pos_G
    - (dc.station1.calcPosInfo rt.stationRuntime1).pos_G

/-- C3: after the position stage the stored position error is the target
distance minus the Euclidean separation of the two station world positions;
it is zero exactly when the separation equals the target and positive
exactly when the stations are closer than the target; the stored direction
is the separation vector scaled by the inverse separation, so (whenever the
separation is non-zero) the separation times the stored unit direction
recovers the vector pointing from station 1 to station 2. -/
theorem calcPosInfo_position_error_law (dc : RBDistanceConstraint)
    (rt : RBDistanceConstraintRuntime)
    (hsep : 0 < (stationSeparation dc rt).norm) :
    (dc.calcPosInfo rt).posErr = dc.distance - (stationSeparation dc rt).norm
    ∧ ((dc.calcPosInfo rt).posErr = 0
        ↔ (stationSeparation dc rt).norm = dc.distance)
    ∧ (0 < (dc.calcPosInfo rt).posErr
        ↔ (stationSeparation dc rt).norm < dc.distance)
    ∧ (dc.calcPosInfo rt).fromTip1ToTip2_G = stationSeparation dc rt
    ∧ Vec3.smulR ((stationSeparation dc rt).norm) (dc.calcPosInfo rt).unitDirection_G
        = stationSeparation dc rt := by
  have hne : (stationSeparation dc rt).norm ≠ 0 := ne_of_gt hsep
  have herr : (dc.calcPosInfo rt).posErr
      = dc.distance - (stationSeparation dc rt).norm := rfl
  refine ⟨herr, ?_, ?_, rfl, ?_⟩
  · rw [herr, sub_eq_zero, eq_comm]
  · rw [herr, sub_pos]
  · exact Vec3.smulR_divR_cancel _ _ hne

/-- A node at rest whose body frame is the world frame translated to p. -/
def nodeKinStill (p : Vec3) : RBNodeKinematics :=
  ⟨mat3Id, p, ⟨0, 0, 0⟩, ⟨0, 0, 0⟩, ⟨0, 0, 0⟩, ⟨0, 0, 0⟩⟩

/-- A station at the body origin of a resting node at p. -/
def stationAt (p : Vec3) : RBStation :=
  ⟨nodeKinStill p, ⟨0, 0, 0⟩⟩

/-- A zeroed station runtime slot. -/
def rtZero : RBStationRuntime :=
  ⟨⟨0, 0, 0⟩, ⟨0, 0, 0⟩, ⟨0, 0, 0⟩, ⟨0, 0, 0⟩, ⟨0, 0, 0⟩⟩

/-- A zeroed distance-constraint runtime slot. -/
def dcrtZero : RBDistanceConstraintRuntime :=
  ⟨rtZero, rtZero, ⟨0, 0, 0⟩, ⟨0, 0, 0⟩, ⟨0, 0, 0⟩, 0, 0, 0⟩

/-- Stations at world positions (0,0,0) and (3,4,0), target distance 5: an
exactly satisfied constraint with separation 5. -/
def dcEx : RBDistanceConstraint :=
  ⟨stationAt ⟨0, 0, 0⟩, stationAt ⟨3, 4, 0⟩, 5, 0⟩

theorem dcEx_norm_eq_five : (stationSeparation dcEx dcrtZero).norm = 5 := by
  have h : (stationSeparation dcEx dcrtZero).normSqr = 25 := by
    simp only [stationSeparation, dcEx, stationAt, nodeKinStill, mat3Id,
      RBStation.calcPosInfo, Mat3.mulVec, Vec3.dot, Vec3.normSqr, Vec3.add_def,
      Vec3.sub_def, dcrtZero, rtZero]
    norm_num
  rw [Vec3.norm, h, show (25 : ℝ) = 5 ^ 2 by norm_num, Real.sqrt_sq (by norm_num)]

theorem calcPosInfo_position_error_law_witness :
    0 < (stationSeparation dcEx dcrtZero).norm
    ∧ ((dcEx.calcPosInfo dcrtZero).posErr = 0
        ↔ (stationSeparation dcEx dcrtZero).norm = dcEx.distance)
    ∧ (dcEx.calcPosInfo dcrtZero).posErr = 0 := by
  have hpos : 0 < (stationSeparation dcEx dcrtZero).norm := by
    rw [dcEx_norm_eq_five]; norm_num
  have hiff := (calcPosInfo_position_error_law dcEx dcrtZero hpos).2.1
  exact ⟨hpos, hiff, hiff.mpr (by rw [dcEx_norm_eq_five]; rfl)⟩

/-- Two coincident stations (both world positions (1,2,3)), target distance
2: a degenerate constraint with zero separation. -/
def dcDegenerate : RBDistanceConstraint :=
  ⟨stationAt ⟨1, 2, 3⟩, stationAt ⟨1, 2, 3⟩, 2, 0⟩

theorem dcDegenerate_sep_zero :
    stationSeparation dcDegenerate dcrtZero = ⟨0, 0, 0⟩ := by
  simp only [stationSeparation, dcDegenerate, stationAt, nodeKinStill, mat3Id,
    RBStation.calcPosInfo, Mat3.mulVec, Vec3.dot, Vec3.add_def, Vec3.sub_def,
    dcrtZero, rtZero, Vec3.mk.injEq]
  norm_num

/-- C8 counterexample: on a concrete distance constraint whose two stations
have exactly coincident world positions, calcPosInfo reaches the division
with a zero denominator (the separation norm is 0) and stores as "unit
direction" the value of that division: under the total real division of the
model this is the zero vector, whose squared magnitude is 0 rather than 1
(under IEEE double arithmetic the components would be NaN).  No guarded
branch or dedicated degeneracy outcome exists in the computation. -/
theorem calcPosInfo_zero_separation_cex :
    stationSeparation dcDegenerate dcrtZero = ⟨0, 0, 0⟩
    ∧ (stationSeparation dcDegenerate dcrtZero).norm = 0
    ∧ (dcDegenerate.calcPosInfo dcrtZero).unitDirection_G = ⟨0, 0, 0⟩
    ∧ (dcDegenerate.calcPosInfo dcrtZero).unitDirection_G.normSqr = 0 := by
  have hz := dcDegenerate_sep_zero
  have hnorm : (stationSeparation dcDegenerate dcrtZero).norm = 0 := by
    rw [hz, Vec3.norm]
    simp [Vec3.normSqr]
  have hdir : (dcDegenerate.calcPosInfo dcrtZero).unitDirection_G = ⟨0, 0, 0⟩ := by
    show (stationSeparation dcDegenerate dcrtZero).divR
        ((stationSeparation dcDegenerate dcrtZero).norm) = (⟨0, 0, 0⟩ : Vec3)
    rw [hz]
    simp [Vec3.divR]
  refine ⟨hz, hnorm, hdir, ?_⟩
  rw [hdir]
  simp [Vec3.normSqr]

/-- C8 amended: for every distance constraint whose two stations have zero
world-position separation, the position-stage computation is not guarded:
the division by the (zero) separation norm is performed anyway, the stored
direction is the result of that division (the zero vector under total real
division, NaN components under IEEE doubles) and so is not a unit vector,
and the position error degenerates to the bare target distance; no explicit
degeneracy outcome is produced. -/
theorem calcPosInfo_zero_separation_unguarded (dc : RBDistanceConstraint)
    (rt : RBDistanceConstraintRuntime)
    (hz : stationSeparation dc rt = ⟨0, 0, 0⟩) :
    (dc.calcPosInfo rt).unitDirection_G = ⟨0, 0, 0⟩
    ∧ (dc.calcPosInfo rt).unitDirection_G.normSqr = 0
    ∧ (dc.calcPosInfo rt).posErr = dc.distance := by
  have hnorm : (stationSeparation dc rt).norm = 0 := by
    rw [hz, Vec3.norm]
    simp [Vec3.normSqr]
  have hdir : (dc.calcPosInfo rt).unitDirection_G = ⟨0, 0, 0⟩ := by
    show (stationSeparation dc rt).divR ((stationSeparation dc rt).norm)
        = (⟨0, 0, 0⟩ : Vec3)
    rw [hz]
    simp [Vec3.divR]
  refine ⟨hdir, ?_, ?_⟩
  · rw [hdir]
    simp [Vec3.normSqr]
  · show dc.distance - (stationSeparation dc rt).norm = dc.distance
    rw [hnorm, sub_zero]

theorem calcPosInfo_zero_separation_unguarded_witness :
    stationSeparation dcDegenerate dcrtZero = ⟨0, 0, 0⟩
    ∧ (dcDegenerate.calcPosInfo dcrtZero).posErr = dcDegenerate.distance :=
  ⟨dcDegenerate_sep_zero,
   (calcPosInfo_zero_separation_unguarded dcDegenerate dcrtZero
      dcDegenerate_sep_zero).2.2⟩

theorem getD_append_singleton_length {α : Type} (l : List α) (a d : α) :
    (l ++ [a]).getD l.length d = a := by
  rw [List.getD_eq_getElem _ _ (by simp)]
  exact List.getElem_concat_length _ _ _ rfl _

theorem getD_append_singleton_lt {α : Type} (l : List α) (a d : α) (p : Nat)
    (hp : p < l.length) : (l ++ [a]).getD p d = l.getD p d := by
  rw [List.getD_eq_getElem _ _ (by simp; omega), List.getD_eq_getElem _ _ hp]
  exact List.getElem_append_left ..

theorem getD_set_ne {α : Type} (l : List α) (i j : Nat) (hij : i ≠ j) (v d : α) :
    (l.set i v).getD j d = l.getD j d := by
  by_cases hj : j < l.length
  · rw [List.getD_eq_getElem _ _ (by simpa using hj), List.getD_eq_getElem _ _ hj]
    exact List.getElem_set_ne hij _
  · rw [List.getD_eq_default _ _ (by simpa using not_lt.mp hj),
      List.getD_eq_default _ _ (not_lt.mp hj)]

theorem copyCtor_eq (w : SBWorld) (src : SBState) :
    SBState.copyCtor w src
      = (⟨(match src.vars with
            | some p => w.varsHeap ++ [w.readVars p]
            | none => w.varsHeap),
          (match src.cache with
            | some q => w.cacheHeap ++ [w.readCache q]
            | none => w.cacheHeap)⟩,
         ⟨src.vars.map (fun _ => w.varsHeap.length),
          src.cache.map (fun _ => w.cacheHeap.length)⟩) := by
  rcases src with ⟨v, c⟩
  rcases v with _ | p <;> rcases c with _ | q <;> rfl

theorem copyCtor_vars_none (w : SBWorld) (src : SBState) (hv : src.vars = none) :
    (SBState.copyCtor w src).2.vars = none := by
  rw [copyCtor_eq]
  show src.vars.map _ = none
  rw [hv]
  rfl

theorem copyCtor_cache_none (w : SBWorld) (src : SBState) (hc : src.cache = none) :
    (SBState.copyCtor w src).2.cache = none := by
  rw [copyCtor_eq]
  show src.cache.map _ = none
  rw [hc]
  rfl

theorem copyCtor_vars_some (w : SBWorld) (src : SBState) (p : Nat)
    (hv : src.vars = some p) (hp : p < w.varsHeap.length) :
    (SBState.copyCtor w src).2.vars = some w.varsHeap.length
    ∧ (SBState.copyCtor w src).1.readVars w.varsHeap.length = w.readVars p
    ∧ ∀ v, ((SBState.copyCtor w src).1.writeVars w.varsHeap.length v).readVars p
        = w.readVars p := by
  rw [copyCtor_eq]
  refine ⟨by show src.vars.map _ = _; rw [hv]; rfl, ?_, ?_⟩
  · simp only [SBWorld.readVars, hv]
    exact getD_append_singleton_length _ _ _
  · intro v
    simp only [SBWorld.writeVars, SBWorld.readVars, hv]
    rw [getD_set_ne _ _ _ (by omega) _ _]
    exact getD_append_singleton_lt _ _ _ _ hp

theorem copyCtor_cache_some (w : SBWorld) (src : SBState) (q : Nat)
    (hc : src.cache = some q) (hq : q < w.cacheHeap.length) :
    (SBState.copyCtor w src).2.cache = some w.cacheHeap.length
    ∧ (SBState.copyCtor w src).1.readCache w.cacheHeap.length = w.readCache q
    ∧ ∀ r, ((SBState.copyCtor w src).1.writeCache w.cacheHeap.length r).readCache q
        = w.readCache q := by
  rw [copyCtor_eq]
  refine ⟨by show src.cache.map _ = _; rw [hc]; rfl, ?_, ?_⟩
  · simp only [SBWorld.readCache, hc]
    exact getD_append_singleton_length _ _ _
  · intro r
    simp only [SBWorld.writeCache, SBWorld.readCache, hc]
    rw [getD_set_ne _ _ _ (by omega) _ _]
    exact getD_append_singleton_lt _ _ _ _ hq

/-- C5: copying a state container treats the two independently-optional
sub-objects separately and deep-copies exactly the ones present, for both
the copy constructor and (non-self) assignment.  For an arbitrary source: a
null sub-object of the source yields a null sub-object of the copy (never a
default-constructed one); a present sub-object yields a pointer to a fresh
heap cell (the old heap length) holding the same value the source cell
holds, and overwriting the copy cell leaves the value of the source cell
unchanged.  A non-self assignment installs in the target slot exactly the
state the copy constructor builds from the same source, with the same effect
on the heaps, so the deep-copy and null-propagation conclusions hold for
operator= as well; the two final conjuncts state the null-propagation for
the assigned target directly. -/
theorem sbstate_copy_deep_semantics
    (w : SBWorld) (src : SBState)
    (s : SBObjs) (ti si : Nat) (hne : ti ≠ si) (hti : ti < s.objs.length)
    (hobj : s.objs.getD si ⟨none, none⟩ = src) (hw : s.world = w) :
    ((src.vars = none → (SBState.copyCtor w src).2.vars = none)
      ∧ ∀ p, src.vars = some p → p < w.varsHeap.length →
          (SBState.copyCtor w src).2.vars = some w.varsHeap.length
          ∧ (SBState.copyCtor w src).1.readVars w.varsHeap.length = w.readVars p
          ∧ ∀ v, ((SBState.copyCtor w src).1.writeVars w.varsHeap.length v).readVars p
              = w.readVars p)
    ∧ ((src.cache = none → (SBState.copyCtor w src).2.cache = none)
      ∧ ∀ q, src.cache = some q → q < w.cacheHeap.length →
          (SBState.copyCtor w src).2.cache = some w.cacheHeap.length
          ∧ (SBState.copyCtor w src).1.readCache w.cacheHeap.length = w.readCache q
          ∧ ∀ r, ((SBState.copyCtor w src).1.writeCache w.cacheHeap.length r).readCache q
              = w.readCache q)
    ∧ ((s.opAssign ti si).world = (SBState.copyCtor w src).1
      ∧ (s.opAssign ti si).objs.getD ti ⟨none, none⟩ = (SBState.copyCtor w src).2)
    ∧ (src.vars = none → ((s.opAssign ti si).objs.getD ti ⟨none, none⟩).vars = none)
    ∧ (src.cache = none →
        ((s.opAssign ti si).objs.getD ti ⟨none, none⟩).cache = none) := by
  have hassign : s.opAssign ti si
      = { world := (SBState.copyCtor w src).1,
          objs := s.objs.set ti (SBState.copyCtor w src).2 } := by
    simp only [SBObjs.opAssign, if_neg hne, hobj, hw]
  have htgt : (s.opAssign ti si).objs.getD ti ⟨none, none⟩
      = (SBState.copyCtor w src).2 := by
    rw [hassign]
    show (s.objs.set ti (SBState.copyCtor w src).2).getD ti _ = _
    rw [List.getD_eq_getElem _ _ (by simpa using hti)]
    exact List.getElem_set_self _
  refine ⟨⟨copyCtor_vars_none w src, fun p hv hp => copyCtor_vars_some w src p hv hp⟩,
    ⟨copyCtor_cache_none w src, fun q hc hq => copyCtor_cache_some w src q hc hq⟩,
    ⟨by rw [hassign], htgt⟩,
    fun hv => by rw [htgt]; exact copyCtor_vars_none w src hv,
    fun hc => by rw [htgt]; exact copyCtor_cache_none w src hc⟩

/-- A concrete world with one variables cell and one cache cell. -/
def wEx : SBWorld := ⟨[⟨7⟩], [⟨8⟩]⟩

/-- A mixed-presence state: variables present (pointing at cell 0), cache
null -- the null-cache scenario of the spec. -/
def srcMixed : SBState := ⟨some 0, none⟩

/-- An object store over wEx: slot 0 empty, slot 1 holds the mixed state. -/
def objsMixedEx : SBObjs := ⟨wEx, [⟨none, none⟩, srcMixed]⟩

theorem sbstate_copy_deep_semantics_witness :
    (SBState.copyCtor wEx srcMixed).2.vars = some 1
    ∧ (SBState.copyCtor wEx srcMixed).2.cache = none
    ∧ ((SBState.copyCtor wEx srcMixed).1.writeVars 1 ⟨99⟩).readVars 0 = wEx.readVars 0
    ∧ (objsMixedEx.opAssign 0 1).objs.getD 0 ⟨none, none⟩
        = (SBState.copyCtor wEx srcMixed).2
    ∧ ((objsMixedEx.opAssign 0 1).objs.getD 0 ⟨none, none⟩).cache = none := by
  have h := sbstate_copy_deep_semantics wEx srcMixed objsMixedEx 0 1 (by decide)
    (by decide) rfl rfl
  obtain ⟨⟨hvn, hvs⟩, ⟨hcn, hcs⟩, ⟨haw, hao⟩, havn, hacn⟩ := h
  obtain ⟨h1, h2, h3⟩ := hvs 0 rfl (by decide)
  exact ⟨h1, hcn rfl, h3 ⟨99⟩, hao, hacn rfl⟩
